import Mathlib

/-!
The world model display of ed_rviz_plugins.

A shallow embedding of `src/displays/world_model_display.cpp`:
the hash `djb2`, the colour table `COLORS` and the message callback
`WorldModelDisplay::processMessage`, followed by the properties proved
about them.

Conventions of the embedding

* a `std::string` is the list of its bytes;
* coordinates are rationals (exact arithmetic stands in for floating point);
* `std::map<std::string, boost::shared_ptr<EntityVisual> >` is an association
  list; a visual that the code mutates through its pointer is written back
  under its key;
* the two calls into the environment, `getTransform` of the frame manager and
  `service_client_.call`, are arguments of `processMessage`: the transform as
  an `Option` (`none` when the lookup fails), the service as a function from
  the request to an optional response (`none` when the call fails).
-/

namespace EdRviz

/-! ## Strings and the hash -/

/-- A `std::string`, as the list of its bytes. -/
abbrev CppString := List (Fin 256)

/-- Bytes of a text literal (one byte per character, for ASCII text). -/
def bytes (s : String) : CppString :=
  s.toList.map (fun c => Fin.ofNat c.toNat)

/-- The value of `str[i]` as a (signed) `char` promoted to `int`. -/
def charValue (b : Fin 256) : Int :=
  if b.val < 128 then (b.val : Int) else (b.val : Int) - 256

/-- Reduce an integer to the range of a 32-bit signed `int` (wrap-around). -/
def wrapInt32 (x : Int) : Int :=
  (x + 2147483648) % 4294967296 - 2147483648

/-- One iteration of the loop of `djb2`:
`hash = ((hash << 5) + hash) + str[i]`, every operation on a 32-bit `int`. -/
def djb2Step (hash : Int) (c : Fin 256) : Int :=
  wrapInt32 (wrapInt32 (wrapInt32 (hash * 32) + hash) + charValue c)

/-- The accumulator of `djb2` after the loop. -/
def djb2Loop (str : CppString) : Int :=
  str.foldl djb2Step 5381

/-- The function `djb2`: the accumulator is negated when negative (in 32-bit
arithmetic) and returned converted to `unsigned int`. -/
def djb2 (str : CppString) : Nat :=
  let hash := djb2Loop str
  let hash := if hash < 0 then wrapInt32 (-hash) else hash
  (hash % 4294967296).toNat

/-- The table `COLORS[27][3]`. -/
def COLORS : List (ℚ × ℚ × ℚ) :=
  [ (0.6, 0.6, 0.6), (0.6, 0.6, 0.4), (0.6, 0.6, 0.2),
    (0.6, 0.4, 0.6), (0.6, 0.4, 0.4), (0.6, 0.4, 0.2),
    (0.6, 0.2, 0.6), (0.6, 0.2, 0.4), (0.6, 0.2, 0.2),
    (0.4, 0.6, 0.6), (0.4, 0.6, 0.4), (0.4, 0.6, 0.2),
    (0.4, 0.4, 0.6), (0.4, 0.4, 0.4), (0.4, 0.4, 0.2),
    (0.4, 0.2, 0.6), (0.4, 0.2, 0.4), (0.4, 0.2, 0.2),
    (0.2, 0.6, 0.6), (0.2, 0.6, 0.4), (0.2, 0.6, 0.2),
    (0.2, 0.4, 0.6), (0.2, 0.4, 0.4), (0.2, 0.4, 0.2),
    (0.2, 0.2, 0.6), (0.2, 0.2, 0.4), (0.2, 0.2, 0.2) ]

/-- The statement `int i_color = djb2(info.id) % 27;`: the remainder is taken
on `unsigned int` and the result converted to `int`. -/
def i_color (id : CppString) : Int :=
  wrapInt32 ((djb2 id % 27 : Nat) : Int)

/-- The read `COLORS[i]` for an `int` index: `none` when the index is outside
the table. -/
def colorRow (i : Int) : Option (ℚ × ℚ × ℚ) :=
  if 0 ≤ i then COLORS[i.toNat]? else none

/-! ## Geometry (Ogre) -/

/-- An `Ogre::Vector3`. -/
structure Vector3 where
  x : ℚ
  y : ℚ
  z : ℚ
  deriving DecidableEq

/-- An `Ogre::Quaternion`. -/
structure Quaternion where
  w : ℚ
  x : ℚ
  y : ℚ
  z : ℚ
  deriving DecidableEq

/-- An `Ogre::ColourValue`. -/
structure ColourValue where
  r : ℚ
  g : ℚ
  b : ℚ
  a : ℚ
  deriving DecidableEq

/-- The operator `Vector3 + Vector3` of Ogre: componentwise sum. -/
def Vector3.add (a b : Vector3) : Vector3 :=
  { x := a.x + b.x, y := a.y + b.y, z := a.z + b.z }

/-- The cross product of Ogre vectors. -/
def Vector3.crossProduct (a b : Vector3) : Vector3 :=
  { x := a.y * b.z - a.z * b.y,
    y := a.z * b.x - a.x * b.z,
    z := a.x * b.y - a.y * b.x }

/-- Scaling of an Ogre vector. -/
def Vector3.scale (a : Vector3) (k : ℚ) : Vector3 :=
  { x := a.x * k, y := a.y * k, z := a.z * k }

/-- The operator `Quaternion * Quaternion` of Ogre: the Hamilton product. -/
def Quaternion.mul (p q : Quaternion) : Quaternion :=
  { w := p.w * q.w - p.x * q.x - p.y * q.y - p.z * q.z,
    x := p.w * q.x + p.x * q.w + p.y * q.z - p.z * q.y,
    y := p.w * q.y + p.y * q.w + p.z * q.x - p.x * q.z,
    z := p.w * q.z + p.z * q.w + p.x * q.y - p.y * q.x }

/-- The operator `Quaternion * Vector3` of Ogre: the rotation of a vector by a
quaternion, `v + 2w (q × v) + 2 (q × (q × v))`. The display never calls it; it
is what "the frame orientation applied to a position" means. -/
def Quaternion.rotate (q : Quaternion) (v : Vector3) : Vector3 :=
  let qvec : Vector3 := { x := q.x, y := q.y, z := q.z }
  let uv := qvec.crossProduct v
  let uuv := qvec.crossProduct uv
  (v.add (uv.scale (2 * q.w))).add (uuv.scale 2)

/-! ## Messages (package ed_gui_server) -/

/-- The message `ed_gui_server/Polygon`. -/
structure Polygon where
  z_min : ℚ
  z_max : ℚ
  xs : List ℚ
  ys : List ℚ
  deriving DecidableEq

/-- The message `ed_gui_server/Mesh`: a revision number and the geometry. -/
structure Mesh where
  revision : Nat
  vertices : List ℚ
  deriving DecidableEq

/-- The message `geometry_msgs/Pose`, position and orientation fields. -/
structure Pose where
  position : Vector3
  orientation : Quaternion
  deriving DecidableEq

/-- The message `ed_gui_server/EntityInfo`, the fields the display reads. -/
structure EntityInfo where
  id : CppString
  has_pose : Bool
  pose : Pose
  mesh_revision : Nat
  polygon : Polygon
  deriving DecidableEq

/-- The message `ed_gui_server/EntityInfos`. -/
structure EntityInfos where
  entities : List EntityInfo
  deriving DecidableEq

/-- The response of the service `ed_gui_server/QueryMeshes`: two parallel
arrays. -/
structure QueryMeshesResponse where
  entity_ids : List CppString
  meshes : List Mesh
  deriving DecidableEq

/-! ## The visual of one entity -/

/-- What an entity visual shows: nothing yet, a convex hull or a mesh. -/
inductive Shape where
  | empty
  | convexHull (polygon : Polygon)
  | mesh (m : Mesh)
  deriving DecidableEq

/-- Modelled from the spec: the class `EntityVisual` of
`src/visuals/entity_visual.h` is not among the sources. The spec calls it a
"per-id visual object" holding "a revision counter"; the display only ever
calls its constructor, its setters and `getMeshRevision`. The object is
modelled by the attributes those calls name. -/
structure EntityVisual where
  frame_position : Vector3
  frame_orientation : Quaternion
  shape : Shape
  mesh_revision : Nat
  color : ColourValue
  label : CppString
  deriving DecidableEq

namespace EntityVisual

/-- Modelled from the spec: `new EntityVisual(...)`, missing from the sources;
a fresh visual shows nothing and its revision counter is zero. -/
def new : EntityVisual :=
  { frame_position := { x := 0, y := 0, z := 0 },
    frame_orientation := { w := 1, x := 0, y := 0, z := 0 },
    shape := Shape.empty,
    mesh_revision := 0,
    color := { r := 0, g := 0, b := 0, a := 0 },
    label := [] }

/-- Modelled from the spec: `setFramePosition`, missing from the sources; it
stores the position. -/
def setFramePosition (v : EntityVisual) (p : Vector3) : EntityVisual :=
  { v with frame_position := p }

/-- Modelled from the spec: `setFrameOrientation`, missing from the sources; it
stores the orientation. -/
def setFrameOrientation (v : EntityVisual) (q : Quaternion) : EntityVisual :=
  { v with frame_orientation := q }

/-- Modelled from the spec: `getMeshRevision`, missing from the sources; it
reads the revision counter. -/
def getMeshRevision (v : EntityVisual) : Nat :=
  v.mesh_revision

/-- Modelled from the spec: `setConvexHull`, missing from the sources; the
visual shows the polygon, the revision counter is left alone. -/
def setConvexHull (v : EntityVisual) (p : Polygon) : EntityVisual :=
  { v with shape := Shape.convexHull p }

/-- Modelled from the spec: `setMesh`, missing from the sources; the visual
shows the mesh and its revision counter becomes the revision of that mesh. -/
def setMesh (v : EntityVisual) (m : Mesh) : EntityVisual :=
  { v with shape := Shape.mesh m, mesh_revision := m.revision }

/-- Modelled from the spec: `setColor`, missing from the sources; it stores the
colour. -/
def setColor (v : EntityVisual) (c : ColourValue) : EntityVisual :=
  { v with color := c }

/-- Modelled from the spec: `setLabel`, missing from the sources; it stores the
label. -/
def setLabel (v : EntityVisual) (l : CppString) : EntityVisual :=
  { v with label := l }

end EntityVisual

/-! ## The dictionary `visuals_` -/

/-- The type of `visuals_`. Entries are kept in insertion order; the callback
reads nothing but membership off its iteration over the map. -/
abbrev VisualMap := List (CppString × EntityVisual)

/-- The call `visuals_.find(id)`: `none` stands for `visuals_.end()`. -/
def mapFind : VisualMap → CppString → Option EntityVisual
  | [], _ => none
  | (k, v) :: rest, id => if k = id then some v else mapFind rest id

/-- The assignment `visuals_[id] = visual`. -/
def mapAssign : VisualMap → CppString → EntityVisual → VisualMap
  | [], id, visual => [(id, visual)]
  | (k, v) :: rest, id, visual =>
    if k = id then (id, visual) :: rest else (k, v) :: mapAssign rest id visual

/-- The call `visuals_.erase(id)`. -/
def mapErase (m : VisualMap) (id : CppString) : VisualMap :=
  m.filter (fun entry => decide (entry.1 ≠ id))

/-- The keys met by an iteration over the map. -/
def mapKeys (m : VisualMap) : List CppString :=
  m.map Prod.fst

/-! ## The display -/

/-- The members of `WorldModelDisplay` that `processMessage` reads and writes:
the dictionary and `query_meshes_srv_.request.entity_ids`. -/
structure WorldModelDisplay where
  visuals_ : VisualMap
  request_entity_ids : List CppString
  deriving DecidableEq

/-- The display after its constructor: no visual, an empty request. -/
def WorldModelDisplay.init : WorldModelDisplay :=
  { visuals_ := [], request_entity_ids := [] }

/-- The literal `"floor"`. -/
def floorLiteral : CppString := [102, 108, 111, 111, 114]

/-- The test
`info.id.size() >= 5 && info.id.substr(info.id.size() - 5) == "floor"`. -/
def endsWithFloor (id : CppString) : Bool :=
  decide (id.length ≥ 5) && decide (id.drop (id.length - 5) = floorLiteral)

/-- An entity that gets past the two `continue` statements of the loop. -/
def kept (info : EntityInfo) : Bool :=
  !endsWithFloor info.id && info.has_pose

/-- The variables of the entity loop: the dictionary, the request being
assembled, `alive_ids`, and (a ghost variable) the ids for which
`new EntityVisual` was executed. -/
structure LoopState where
  visuals : VisualMap
  request_ids : List CppString
  alive_ids : List CppString
  created : List CppString
  deriving DecidableEq

/-- The colour given to the visual of `id`. -/
def colourOf (id : CppString) : ColourValue :=
  match colorRow (i_color id) with
  | some (r, g, b) => { r := r, g := g, b := b, a := 1 }
  | none => { r := 0, g := 0, b := 0, a := 1 }

/-- One iteration of the loop over `msg->entities` (lines 109-147). The test
`info.mesh_revision > visual->getMeshRevision()` of line 137 is read twice,
once for the request and once for the visual; the branch `none` of the second
lookup is never taken, the key having just been found or assigned. -/
def processEntity (frame_position : Vector3) (frame_orientation : Quaternion)
    (st : LoopState) (info : EntityInfo) : LoopState :=
  if endsWithFloor info.id then st
  else if !info.has_pose then st
  else
    let absent := (mapFind st.visuals info.id).isNone
    let visuals1 :=
      if absent then mapAssign st.visuals info.id EntityVisual.new else st.visuals
    let created1 := if absent then st.created ++ [info.id] else st.created
    match mapFind visuals1 info.id with
    | none => st
    | some visual =>
      let position : Vector3 :=
        { x := info.pose.position.x, y := info.pose.position.y, z := info.pose.position.z }
      let orientation : Quaternion :=
        { w := info.pose.orientation.w, x := info.pose.orientation.x,
          y := info.pose.orientation.y, z := info.pose.orientation.z }
      let visual := visual.setFramePosition (frame_position.add position)
      let visual := visual.setFrameOrientation (frame_orientation.mul orientation)
      let request1 :=
        if info.mesh_revision > visual.getMeshRevision then st.request_ids ++ [info.id]
        else st.request_ids
      let visual :=
        if info.mesh_revision > visual.getMeshRevision then visual
        else if info.mesh_revision = 0 then visual.setConvexHull info.polygon
        else visual
      let visual := visual.setColor (colourOf info.id)
      let visual := visual.setLabel info.id
      { visuals := mapAssign visuals1 info.id visual,
        request_ids := request1,
        alive_ids := st.alive_ids ++ [info.id],
        created := created1 }

/-- The loop over `msg->entities`. -/
def entityLoop (frame_position : Vector3) (frame_orientation : Quaternion)
    (st : LoopState) (entities : List EntityInfo) : LoopState :=
  entities.foldl (processEntity frame_position frame_orientation) st

/-- The list `ids_to_be_removed` (lines 151-156). -/
def idsToBeRemoved (visuals : VisualMap) (alive_ids : List CppString) : List CppString :=
  (mapKeys visuals).filter (fun k => decide (k ∉ alive_ids))

/-- Removal of the stale visuals (lines 159-160). -/
def removeStale (visuals : VisualMap) (alive_ids : List CppString) : VisualMap :=
  (idsToBeRemoved visuals alive_ids).foldl mapErase visuals

/-- One iteration of the loop over the response (lines 169-175). -/
def applyMesh (visuals : VisualMap) (entry : CppString × Mesh) : VisualMap :=
  match mapFind visuals entry.1 with
  | none => visuals
  | some visual => mapAssign visuals entry.1 (visual.setMesh entry.2)

/-- The loop over the response (lines 167-176). It runs once per mesh and reads
the id at the same index; the response arrays are parallel, and the model
pairs them up. -/
def applyResponse (visuals : VisualMap) (response : QueryMeshesResponse) : VisualMap :=
  (response.entity_ids.zip response.meshes).foldl applyMesh visuals

/-- What one run of `processMessage` leaves behind: the members of the display,
the requests passed to `service_client_.call` (in order), and the ids for which
a visual was constructed. -/
structure Outcome where
  state : WorldModelDisplay
  service_calls : List (List CppString)
  created : List CppString
  deriving DecidableEq

/-- The state of the loop variables when the entity loop starts. -/
def loopStart (s : WorldModelDisplay) : LoopState :=
  { visuals := s.visuals_, request_ids := s.request_entity_ids, alive_ids := [], created := [] }

/-- The callback `WorldModelDisplay::processMessage` (lines 95-186). -/
def processMessage (s : WorldModelDisplay) (msg : EntityInfos)
    (transform : Option (Vector3 × Quaternion))
    (service : List CppString → Option QueryMeshesResponse) : Outcome :=
  match transform with
  | none => { state := s, service_calls := [], created := [] }
  | some (frame_position, frame_orientation) =>
    let st := entityLoop frame_position frame_orientation (loopStart s) msg.entities
    let visuals := removeStale st.visuals st.alive_ids
    if st.request_ids.isEmpty then
      { state := { visuals_ := visuals, request_entity_ids := [] },
        service_calls := [],
        created := st.created }
    else
      match service st.request_ids with
      | some response =>
        { state := { visuals_ := applyResponse visuals response, request_entity_ids := [] },
          service_calls := [st.request_ids],
          created := st.created }
      | none =>
        { state := { visuals_ := visuals, request_entity_ids := [] },
          service_calls := [st.request_ids],
          created := st.created }

/-- One message delivered to the display, with what the environment answers
while it is handled. -/
structure Delivery where
  msg : EntityInfos
  transform : Option (Vector3 × Quaternion)
  service : List CppString → Option QueryMeshesResponse

/-- The display after a sequence of messages. -/
def run (s : WorldModelDisplay) (deliveries : List Delivery) : WorldModelDisplay :=
  deliveries.foldl (fun s d => (processMessage s d.msg d.transform d.service).state) s

/-- The revision counter a lookup-or-create of `id` in `visuals` finds. -/
def storedRevision (visuals : VisualMap) (id : CppString) : Nat :=
  match mapFind visuals id with
  | some visual => visual.getMeshRevision
  | none => EntityVisual.new.getMeshRevision

/-- The visual a lookup-or-create of `id` in `visuals` yields (lines 117-120). -/
def lookupOrNew (visuals : VisualMap) (id : CppString) : EntityVisual :=
  match mapFind visuals id with
  | some visual => visual
  | none => EntityVisual.new

/-- The setters the loop body applies to the visual of a kept entity
(lines 134-145). -/
def updateVisual (frame_position : Vector3) (frame_orientation : Quaternion)
    (info : EntityInfo) (visual : EntityVisual) : EntityVisual :=
  let visual := visual.setFramePosition (frame_position.add info.pose.position)
  let visual := visual.setFrameOrientation (frame_orientation.mul info.pose.orientation)
  let visual :=
    if info.mesh_revision > visual.getMeshRevision then visual
    else if info.mesh_revision = 0 then visual.setConvexHull info.polygon
    else visual
  (visual.setColor (colourOf info.id)).setLabel info.id

/-- The kept entities of a message whose mesh revision exceeds the revision
stored for their id in `visuals`. -/
def staleEntities (visuals : VisualMap) (entities : List EntityInfo) : List EntityInfo :=
  entities.filter (fun e => kept e && decide (e.mesh_revision > storedRevision visuals e.id))

/-- The ids of the kept entities of a message, in message order. -/
def keptIds (msg : EntityInfos) : List CppString :=
  (msg.entities.filter kept).map (fun e => e.id)

/-- The loop variables when the entity loop of `processMessage` ends. -/
def loopEnd (s : WorldModelDisplay) (msg : EntityInfos) (frame_position : Vector3)
    (frame_orientation : Quaternion) : LoopState :=
  entityLoop frame_position frame_orientation (loopStart s) msg.entities

/-! ## Concrete inputs -/

/-- An entity at position `(1, 0, 0)` with the identity orientation. -/
def sampleEntity (id : CppString) (has_pose : Bool) (mesh_revision : Nat) : EntityInfo :=
  { id := id,
    has_pose := has_pose,
    pose := { position := { x := 1, y := 0, z := 0 },
              orientation := { w := 1, x := 0, y := 0, z := 0 } },
    mesh_revision := mesh_revision,
    polygon := { z_min := 0, z_max := 1, xs := [], ys := [] } }

/-- A message with a floor entity, an entity without a pose and an ordinary
entity. -/
def sampleMsg : EntityInfos :=
  { entities := [sampleEntity (bytes "floor") true 0,
                 sampleEntity (bytes "a") false 0,
                 sampleEntity (bytes "b") true 0] }

/-- A message with no entity. -/
def emptyMsg : EntityInfos := { entities := [] }

/-- The origin. -/
def zeroVector : Vector3 := { x := 0, y := 0, z := 0 }

/-- The identity rotation. -/
def identityQuaternion : Quaternion := { w := 1, x := 0, y := 0, z := 0 }

/-- A service whose every call fails. -/
def failingService : List CppString → Option QueryMeshesResponse := fun _ => none

/-- A display that holds one visual, for the id `a`, at mesh revision 3. -/
def displayWithA : WorldModelDisplay :=
  { visuals_ := [(bytes "a", { EntityVisual.new with mesh_revision := 3 })],
    request_entity_ids := [] }

/-- A message naming `a` at revisions 5 and 2 and a new entity `b` at
revision 0. -/
def staleMsg : EntityInfos :=
  { entities := [sampleEntity (bytes "a") true 5,
                 sampleEntity (bytes "b") true 0,
                 sampleEntity (bytes "a") true 2] }

/-- A message naming `a` at revision 3. -/
def freshMsg : EntityInfos :=
  { entities := [sampleEntity (bytes "a") true 3] }

/-- A message with the single entity `b`, at position `(1, 0, 0)`. -/
def oneEntityMsg : EntityInfos :=
  { entities := [sampleEntity (bytes "b") true 0] }

/-- The half turn about the z axis. -/
def halfTurnZ : Quaternion := { w := 0, x := 0, y := 0, z := 1 }

/-! ## Lemmas on the dictionary -/

theorem mapFind_mapAssign_self (m : VisualMap) (k : CppString) (v : EntityVisual) :
    mapFind (mapAssign m k v) k = some v := by
  induction m with
  | nil => simp [mapAssign, mapFind]
  | cons e rest ih =>
    obtain ⟨k1, v1⟩ := e
    by_cases h : k1 = k
    · simp [mapAssign, mapFind, h]
    · simp [mapAssign, mapFind, h, ih]

theorem mapFind_mapAssign_ne (m : VisualMap) (k k2 : CppString) (v : EntityVisual)
    (hne : k2 ≠ k) : mapFind (mapAssign m k v) k2 = mapFind m k2 := by
  induction m with
  | nil => simp [mapAssign, mapFind, Ne.symm hne]
  | cons e rest ih =>
    obtain ⟨k1, v1⟩ := e
    by_cases h : k1 = k
    · subst h
      simp [mapAssign, mapFind, Ne.symm hne]
    · by_cases h2 : k1 = k2
      · subst h2
        simp [mapAssign, mapFind, h]
      · simp [mapAssign, mapFind, h, h2, ih]

theorem mapFind_mapAssign (m : VisualMap) (k k2 : CppString) (v : EntityVisual) :
    mapFind (mapAssign m k v) k2 = if k2 = k then some v else mapFind m k2 := by
  by_cases h : k2 = k
  · subst h
    simp [mapFind_mapAssign_self]
  · simp [h, mapFind_mapAssign_ne m k k2 v h]

theorem mem_mapKeys_iff (m : VisualMap) (k : CppString) :
    k ∈ mapKeys m ↔ mapFind m k ≠ none := by
  induction m with
  | nil => simp [mapKeys, mapFind]
  | cons e rest ih =>
    obtain ⟨k1, v1⟩ := e
    by_cases h : k1 = k
    · simp [mapKeys, mapFind, h]
    · have ih2 : k ∈ List.map Prod.fst rest ↔ mapFind rest k ≠ none := ih
      simp only [mapKeys, List.map_cons, List.mem_cons, mapFind, h, if_false]
      rw [ih2]
      constructor
      · rintro (h1 | h1)
        · exact absurd h1.symm h
        · exact h1
      · intro h1
        exact Or.inr h1

theorem mapKeys_mapAssign_of_find (m : VisualMap) (k : CppString) (v v2 : EntityVisual)
    (h : mapFind m k = some v) : mapKeys (mapAssign m k v2) = mapKeys m := by
  induction m with
  | nil => simp [mapFind] at h
  | cons e rest ih =>
    obtain ⟨k1, v1⟩ := e
    by_cases h1 : k1 = k
    · simp [mapAssign, mapKeys, h1]
    · have h2 : mapFind rest k = some v := by simpa [mapFind, h1] using h
      have ih2 := ih h2
      simp only [mapKeys] at ih2
      simp [mapAssign, mapKeys, h1, ih2]

theorem mapFind_mapErase (m : VisualMap) (id k : CppString) :
    mapFind (mapErase m id) k = if k = id then none else mapFind m k := by
  induction m with
  | nil => simp [mapErase, mapFind]
  | cons e rest ih =>
    obtain ⟨k1, v1⟩ := e
    simp only [mapErase] at ih
    simp only [mapErase, List.filter_cons]
    by_cases h1 : k1 = id
    · subst h1
      by_cases h2 : k = k1
      · subst h2
        simpa using ih
      · simpa [h2, mapFind, Ne.symm h2] using ih
    · by_cases h2 : k1 = k
      · subst h2
        simp [h1, mapFind]
      · simpa [h1, mapFind, h2] using ih

theorem mapFind_foldl_mapErase (ids : List CppString) (m : VisualMap) (k : CppString) :
    mapFind (ids.foldl mapErase m) k = if k ∈ ids then none else mapFind m k := by
  induction ids generalizing m with
  | nil => simp
  | cons id rest ih =>
    simp only [List.foldl_cons, ih, mapFind_mapErase, List.mem_cons]
    by_cases h1 : k = id <;> by_cases h2 : k ∈ rest <;> simp [h1, h2]

theorem mapFind_removeStale (m : VisualMap) (alive : List CppString) (k : CppString) :
    mapFind (removeStale m alive) k = if k ∈ alive then mapFind m k else none := by
  unfold removeStale
  rw [mapFind_foldl_mapErase]
  by_cases h1 : k ∈ alive
  · simp [idsToBeRemoved, h1]
  · by_cases h2 : k ∈ mapKeys m
    · simp [idsToBeRemoved, h1, h2]
    · have h3 : mapFind m k = none := by
        by_contra hc
        exact h2 ((mem_mapKeys_iff m k).mpr hc)
      simp [idsToBeRemoved, h1, h2, h3]

theorem mapKeys_applyMesh (m : VisualMap) (entry : CppString × Mesh) :
    mapKeys (applyMesh m entry) = mapKeys m := by
  unfold applyMesh
  cases h : mapFind m entry.1 with
  | none => rfl
  | some v => exact mapKeys_mapAssign_of_find m entry.1 v _ h

theorem mapKeys_applyResponse (m : VisualMap) (response : QueryMeshesResponse) :
    mapKeys (applyResponse m response) = mapKeys m := by
  unfold applyResponse
  generalize response.entity_ids.zip response.meshes = entries
  induction entries generalizing m with
  | nil => rfl
  | cons e rest ih =>
    simp only [List.foldl_cons]
    rw [ih, mapKeys_applyMesh]

/-! ## Lemmas on one iteration of the entity loop -/

theorem kept_eq_true_iff (info : EntityInfo) :
    kept info = true ↔ endsWithFloor info.id = false ∧ info.has_pose = true := by
  simp [kept]

theorem processEntity_skip (fp : Vector3) (fo : Quaternion) (st : LoopState)
    (info : EntityInfo) (h : kept info = false) : processEntity fp fo st info = st := by
  unfold processEntity
  by_cases h1 : endsWithFloor info.id = true
  · simp [h1]
  · have h2 : info.has_pose = false := by
      simp only [kept, Bool.and_eq_false_iff, Bool.not_eq_false_eq_eq_true] at h
      rcases h with h | h
      · exact absurd h h1
      · exact h
    simp [h1, h2]

theorem processEntity_kept (fp : Vector3) (fo : Quaternion) (st : LoopState)
    (info : EntityInfo) (h : kept info = true) :
    processEntity fp fo st info =
      { visuals :=
          mapAssign
            (if (mapFind st.visuals info.id).isNone
              then mapAssign st.visuals info.id EntityVisual.new else st.visuals)
            info.id (updateVisual fp fo info (lookupOrNew st.visuals info.id)),
        request_ids :=
          if info.mesh_revision > storedRevision st.visuals info.id
            then st.request_ids ++ [info.id] else st.request_ids,
        alive_ids := st.alive_ids ++ [info.id],
        created :=
          if (mapFind st.visuals info.id).isNone
            then st.created ++ [info.id] else st.created } := by
  obtain ⟨h1, h2⟩ := (kept_eq_true_iff info).mp h
  unfold processEntity
  cases hf : mapFind st.visuals info.id with
  | none =>
    simp [h1, h2, hf, mapFind_mapAssign_self, lookupOrNew, storedRevision, updateVisual,
      EntityVisual.setFramePosition, EntityVisual.setFrameOrientation,
      EntityVisual.getMeshRevision]
  | some v =>
    simp [h1, h2, hf, lookupOrNew, storedRevision, updateVisual,
      EntityVisual.setFramePosition, EntityVisual.setFrameOrientation,
      EntityVisual.getMeshRevision]

theorem updateVisual_mesh_revision (fp : Vector3) (fo : Quaternion) (info : EntityInfo)
    (v : EntityVisual) : (updateVisual fp fo info v).mesh_revision = v.mesh_revision := by
  unfold updateVisual
  simp only [EntityVisual.setFramePosition, EntityVisual.setFrameOrientation,
    EntityVisual.getMeshRevision, EntityVisual.setConvexHull, EntityVisual.setColor,
    EntityVisual.setLabel]
  split_ifs <;> rfl

theorem updateVisual_frame (fp : Vector3) (fo : Quaternion) (info : EntityInfo)
    (v : EntityVisual) :
    (updateVisual fp fo info v).frame_position = fp.add info.pose.position ∧
    (updateVisual fp fo info v).frame_orientation = fo.mul info.pose.orientation := by
  unfold updateVisual
  simp only [EntityVisual.setFramePosition, EntityVisual.setFrameOrientation,
    EntityVisual.getMeshRevision, EntityVisual.setConvexHull, EntityVisual.setColor,
    EntityVisual.setLabel]
  split_ifs <;> exact ⟨rfl, rfl⟩

theorem mapFind_processEntity (fp : Vector3) (fo : Quaternion) (st : LoopState)
    (info : EntityInfo) (k : CppString) :
    mapFind (processEntity fp fo st info).visuals k =
      if kept info = true ∧ k = info.id
        then some (updateVisual fp fo info (lookupOrNew st.visuals info.id))
        else mapFind st.visuals k := by
  cases hk : kept info with
  | false => simp [processEntity_skip fp fo st info hk]
  | true =>
    rw [processEntity_kept fp fo st info hk]
    simp only [mapFind_mapAssign, true_and]
    by_cases h : k = info.id
    · simp [h]
    · simp only [h, if_false]
      split_ifs
      · rw [mapFind_mapAssign_ne _ _ _ _ h]
      · rfl

theorem storedRevision_processEntity (fp : Vector3) (fo : Quaternion) (st : LoopState)
    (info : EntityInfo) (k : CppString) :
    storedRevision (processEntity fp fo st info).visuals k = storedRevision st.visuals k := by
  unfold storedRevision
  rw [mapFind_processEntity]
  by_cases h : kept info = true ∧ k = info.id
  · obtain ⟨h1, h2⟩ := h
    subst h2
    simp only [h1, and_self, if_true, EntityVisual.getMeshRevision, updateVisual_mesh_revision,
      lookupOrNew]
    cases hf : mapFind st.visuals info.id <;> rfl
  · simp only [h, if_false]

/-! ## Lemmas on the entity loop -/

theorem entityLoop_cons (fp : Vector3) (fo : Quaternion) (st : LoopState)
    (info : EntityInfo) (rest : List EntityInfo) :
    entityLoop fp fo st (info :: rest) = entityLoop fp fo (processEntity fp fo st info) rest :=
  rfl

theorem alive_ids_processEntity (fp : Vector3) (fo : Quaternion) (st : LoopState)
    (info : EntityInfo) :
    (processEntity fp fo st info).alive_ids
      = st.alive_ids ++ (if kept info = true then [info.id] else []) := by
  cases hk : kept info with
  | false => simp [processEntity_skip fp fo st info hk]
  | true => simp [processEntity_kept fp fo st info hk]

theorem alive_ids_entityLoop (fp : Vector3) (fo : Quaternion) (st : LoopState)
    (entities : List EntityInfo) :
    (entityLoop fp fo st entities).alive_ids
      = st.alive_ids ++ (entities.filter kept).map (fun e => e.id) := by
  induction entities generalizing st with
  | nil => simp [entityLoop]
  | cons info rest ih =>
    rw [entityLoop_cons, ih, alive_ids_processEntity]
    cases hk : kept info <;> simp [List.filter_cons, hk]

theorem storedRevision_entityLoop (fp : Vector3) (fo : Quaternion) (st : LoopState)
    (entities : List EntityInfo) (k : CppString) :
    storedRevision (entityLoop fp fo st entities).visuals k = storedRevision st.visuals k := by
  induction entities generalizing st with
  | nil => rfl
  | cons info rest ih =>
    rw [entityLoop_cons, ih, storedRevision_processEntity]

theorem staleEntities_congr (m1 m2 : VisualMap) (entities : List EntityInfo)
    (h : ∀ k, storedRevision m1 k = storedRevision m2 k) :
    staleEntities m1 entities = staleEntities m2 entities := by
  unfold staleEntities
  congr 1
  funext e
  rw [h]

theorem request_ids_processEntity (fp : Vector3) (fo : Quaternion) (st : LoopState)
    (info : EntityInfo) :
    (processEntity fp fo st info).request_ids
      = st.request_ids ++ (staleEntities st.visuals [info]).map (fun e => e.id) := by
  cases hk : kept info with
  | false => simp [processEntity_skip fp fo st info hk, staleEntities, List.filter_cons, hk]
  | true =>
    rw [processEntity_kept fp fo st info hk]
    by_cases h : info.mesh_revision > storedRevision st.visuals info.id
    · simp [staleEntities, List.filter_cons, hk, h]
    · simp [staleEntities, List.filter_cons, hk, h]

theorem request_ids_entityLoop (fp : Vector3) (fo : Quaternion) (st : LoopState)
    (entities : List EntityInfo) :
    (entityLoop fp fo st entities).request_ids
      = st.request_ids ++ (staleEntities st.visuals entities).map (fun e => e.id) := by
  induction entities generalizing st with
  | nil => simp [entityLoop, staleEntities]
  | cons info rest ih =>
    rw [entityLoop_cons, ih, request_ids_processEntity,
      staleEntities_congr _ st.visuals rest (storedRevision_processEntity fp fo st info)]
    simp [staleEntities, List.filter_cons]
    split_ifs <;> simp

theorem mapFind_entityLoop_ne_none (fp : Vector3) (fo : Quaternion) (st : LoopState)
    (entities : List EntityInfo) (k : CppString) :
    mapFind (entityLoop fp fo st entities).visuals k ≠ none ↔
      mapFind st.visuals k ≠ none ∨ k ∈ (entities.filter kept).map (fun e => e.id) := by
  induction entities generalizing st with
  | nil => simp [entityLoop]
  | cons info rest ih =>
    rw [entityLoop_cons, ih, mapFind_processEntity]
    cases hk : kept info with
    | false => simp [List.filter_cons, hk]
    | true =>
      by_cases h : k = info.id
      · simp [List.filter_cons, hk, h]
      · simp [List.filter_cons, hk, h]

theorem created_processEntity (fp : Vector3) (fo : Quaternion) (st : LoopState)
    (info : EntityInfo) :
    (processEntity fp fo st info).created
      = st.created ++
        (if kept info = true ∧ mapFind st.visuals info.id = none then [info.id] else []) := by
  cases hk : kept info with
  | false => simp [processEntity_skip fp fo st info hk]
  | true =>
    rw [processEntity_kept fp fo st info hk]
    cases hf : mapFind st.visuals info.id <;> simp

theorem created_entityLoop_sound (fp : Vector3) (fo : Quaternion) (st : LoopState)
    (entities : List EntityInfo) (k : CppString)
    (h : k ∈ (entityLoop fp fo st entities).created) :
    k ∈ st.created ∨
      (mapFind st.visuals k = none ∧ k ∈ (entities.filter kept).map (fun e => e.id)) := by
  induction entities generalizing st with
  | nil => exact Or.inl h
  | cons info rest ih =>
    rw [entityLoop_cons] at h
    rcases ih _ h with h1 | ⟨h1, h2⟩
    · rw [created_processEntity] at h1
      rcases List.mem_append.mp h1 with h3 | h3
      · exact Or.inl h3
      · right
        split_ifs at h3 with h4
        · have h5 : k = info.id := by simpa using h3
          subst h5
          exact ⟨h4.2, by simp [List.filter_cons, h4.1]⟩
        · simp at h3
    · right
      rw [mapFind_processEntity] at h1
      split_ifs at h1 with h4
      refine ⟨h1, ?_⟩
      cases hk : kept info
      · simpa [List.filter_cons, hk] using h2
      · simp only [List.filter_cons, hk, if_true, List.map_cons, List.mem_cons]
        exact Or.inr h2

theorem created_entityLoop_nodup (fp : Vector3) (fo : Quaternion) (st : LoopState)
    (entities : List EntityInfo) (h1 : st.created.Nodup)
    (h2 : ∀ k ∈ st.created, mapFind st.visuals k ≠ none) :
    (entityLoop fp fo st entities).created.Nodup := by
  induction entities generalizing st with
  | nil => exact h1
  | cons info rest ih =>
    rw [entityLoop_cons]
    apply ih
    · rw [created_processEntity]
      split_ifs with h3
      · rw [List.nodup_append]
        refine ⟨h1, List.nodup_singleton _, ?_⟩
        intro a ha hb
        have hc : a = info.id := by simpa using hb
        subst hc
        exact h2 _ ha h3.2
      · simpa using h1
    · intro k hk
      rw [mapFind_processEntity]
      rw [created_processEntity] at hk
      by_cases h4 : kept info = true ∧ k = info.id
      · simp [h4]
      · simp only [h4, if_false]
        rcases List.mem_append.mp hk with h5 | h5
        · exact h2 k h5
        · split_ifs at h5 with h6
          · have hc : k = info.id := by simpa using h5
            exact absurd ⟨h6.1, hc⟩ h4
          · simp at h5

/-! ## Lemmas on `processMessage` -/

theorem endsWithFloor_iff_suffix (id : CppString) :
    endsWithFloor id = true ↔ floorLiteral <:+ id := by
  unfold endsWithFloor
  simp only [Bool.and_eq_true, decide_eq_true_eq]
  constructor
  · rintro ⟨_, h2⟩
    rw [← h2]
    exact List.drop_suffix _ _
  · rintro ⟨p, hp⟩
    subst hp
    have hl : floorLiteral.length = 5 := rfl
    refine ⟨by simp [hl], ?_⟩
    have h3 : (p ++ floorLiteral).length - 5 = p.length := by simp [hl]
    rw [h3, List.drop_left]

theorem processMessage_visuals_cases (s : WorldModelDisplay) (msg : EntityInfos)
    (fp : Vector3) (fo : Quaternion) (service : List CppString → Option QueryMeshesResponse) :
    (processMessage s msg (some (fp, fo)) service).state.visuals_
        = removeStale (loopEnd s msg fp fo).visuals (loopEnd s msg fp fo).alive_ids
    ∨ ∃ response,
        service (loopEnd s msg fp fo).request_ids = some response ∧
        (loopEnd s msg fp fo).request_ids ≠ [] ∧
        (processMessage s msg (some (fp, fo)) service).state.visuals_
          = applyResponse
              (removeStale (loopEnd s msg fp fo).visuals (loopEnd s msg fp fo).alive_ids)
              response := by
  simp only [processMessage, loopEnd]
  split
  · exact Or.inl rfl
  · rename_i hne
    split
    · rename_i response hs
      right
      refine ⟨response, hs, ?_, rfl⟩
      intro h
      exact hne (by simp [h])
    · exact Or.inl rfl

theorem mem_mapKeys_removeStale_loopEnd (s : WorldModelDisplay) (msg : EntityInfos)
    (fp : Vector3) (fo : Quaternion) (k : CppString) :
    k ∈ mapKeys (removeStale (loopEnd s msg fp fo).visuals (loopEnd s msg fp fo).alive_ids)
      ↔ k ∈ keptIds msg := by
  rw [mem_mapKeys_iff, mapFind_removeStale]
  have ha : (loopEnd s msg fp fo).alive_ids = keptIds msg := by
    simp [loopEnd, alive_ids_entityLoop, loopStart, keptIds]
  rw [ha]
  by_cases h : k ∈ keptIds msg
  · simp only [h, if_true, iff_true]
    unfold loopEnd
    rw [mapFind_entityLoop_ne_none]
    exact Or.inr h
  · simp [h]

theorem mem_mapKeys_processMessage (s : WorldModelDisplay) (msg : EntityInfos)
    (fp : Vector3) (fo : Quaternion) (service : List CppString → Option QueryMeshesResponse)
    (k : CppString) :
    k ∈ mapKeys (processMessage s msg (some (fp, fo)) service).state.visuals_
      ↔ k ∈ keptIds msg := by
  rcases processMessage_visuals_cases s msg fp fo service with h | ⟨response, _, _, h⟩
  · rw [h]
    exact mem_mapKeys_removeStale_loopEnd s msg fp fo k
  · rw [h, mapKeys_applyResponse]
    exact mem_mapKeys_removeStale_loopEnd s msg fp fo k

theorem mem_keptIds_iff (msg : EntityInfos) (k : CppString) :
    k ∈ keptIds msg ↔
      ∃ e ∈ msg.entities, e.id = k ∧ e.has_pose = true ∧ endsWithFloor e.id = false := by
  simp only [keptIds, List.mem_map, List.mem_filter, kept_eq_true_iff]
  constructor
  · rintro ⟨e, ⟨he, h1, h2⟩, h3⟩
    exact ⟨e, he, h3, h2, h1⟩
  · rintro ⟨e, he, h3, h2, h1⟩
    exact ⟨e, ⟨he, h1, h2⟩, h3⟩

theorem request_entity_ids_processMessage (s : WorldModelDisplay) (msg : EntityInfos)
    (fp : Vector3) (fo : Quaternion) (service : List CppString → Option QueryMeshesResponse) :
    (processMessage s msg (some (fp, fo)) service).state.request_entity_ids = [] := by
  simp only [processMessage]
  split
  · rfl
  · split <;> rfl

theorem service_calls_processMessage (s : WorldModelDisplay) (msg : EntityInfos)
    (fp : Vector3) (fo : Quaternion) (service : List CppString → Option QueryMeshesResponse) :
    (processMessage s msg (some (fp, fo)) service).service_calls
      = if (loopEnd s msg fp fo).request_ids = [] then []
        else [(loopEnd s msg fp fo).request_ids] := by
  simp only [processMessage, loopEnd]
  split
  · rename_i h
    have h2 := List.isEmpty_iff.mp h
    simp [h2]
  · rename_i h
    have h2 : ¬ (entityLoop fp fo (loopStart s) msg.entities).request_ids = [] := by
      intro hc
      exact h (by simp [hc])
    split <;> simp [h2]

theorem created_processMessage (s : WorldModelDisplay) (msg : EntityInfos)
    (fp : Vector3) (fo : Quaternion) (service : List CppString → Option QueryMeshesResponse) :
    (processMessage s msg (some (fp, fo)) service).created = (loopEnd s msg fp fo).created := by
  simp only [processMessage, loopEnd]
  split
  · rfl
  · split <;> rfl

theorem run_snoc (s : WorldModelDisplay) (deliveries : List Delivery) (d : Delivery) :
    run s (deliveries ++ [d])
      = (processMessage (run s deliveries) d.msg d.transform d.service).state := by
  simp [run, List.foldl_append]

theorem run_invariant (deliveries : List Delivery) :
    (run WorldModelDisplay.init deliveries).request_entity_ids = [] ∧
    ∀ k ∈ mapKeys (run WorldModelDisplay.init deliveries).visuals_, endsWithFloor k = false := by
  induction deliveries using List.reverseRecOn with
  | nil => simp [run, WorldModelDisplay.init, mapKeys]
  | append_singleton ds d ih =>
    rw [run_snoc]
    cases ht : d.transform with
    | none => simpa [processMessage] using ih
    | some t =>
      obtain ⟨fp, fo⟩ := t
      refine ⟨request_entity_ids_processMessage _ _ _ _ _, ?_⟩
      intro k hk
      rw [mem_mapKeys_processMessage, mem_keptIds_iff] at hk
      obtain ⟨e, _, h1, _, h3⟩ := hk
      rw [← h1]
      exact h3

/-! ## The claims -/

/-- C1, as stated, fails: after the display has handled `sampleMsg` (a floor
entity, an entity without pose, an ordinary entity) with a successful transform
lookup, the keys of `visuals_` are not the ids occurring in the message. -/
theorem C1_keys_differ_from_message_ids :
    ¬ (∀ k : CppString,
        k ∈ mapKeys (processMessage WorldModelDisplay.init sampleMsg
              (some (zeroVector, identityQuaternion)) failingService).state.visuals_
          ↔ k ∈ sampleMsg.entities.map (fun e => e.id)) := by
  intro h
  have h1 := (h (bytes "floor")).mpr (by decide)
  revert h1
  decide

/-- C1, amended: for every dictionary state and every message for which the
transform lookup succeeds, after `processMessage` the keys of `visuals_` are
exactly the ids of the entities of the message that have a pose and whose id
does not end in "floor". -/
theorem C1_keys_mirror_kept_ids (s : WorldModelDisplay) (msg : EntityInfos)
    (fp : Vector3) (fo : Quaternion) (service : List CppString → Option QueryMeshesResponse)
    (k : CppString) :
    k ∈ mapKeys (processMessage s msg (some (fp, fo)) service).state.visuals_
      ↔ ∃ e ∈ msg.entities, e.id = k ∧ e.has_pose = true ∧ endsWithFloor e.id = false := by
  rw [mem_mapKeys_processMessage, mem_keptIds_iff]

/-- C2: when the transform lookup succeeds, an id that is a key of `visuals_`
before `processMessage` and is the id of no entity of the message is not a key
afterwards. -/
theorem C2_absent_ids_are_erased (s : WorldModelDisplay) (msg : EntityInfos)
    (fp : Vector3) (fo : Quaternion) (service : List CppString → Option QueryMeshesResponse)
    (k : CppString) (_hkey : k ∈ mapKeys s.visuals_)
    (habsent : ∀ e ∈ msg.entities, e.id ≠ k) :
    k ∉ mapKeys (processMessage s msg (some (fp, fo)) service).state.visuals_ := by
  rw [mem_mapKeys_processMessage, mem_keptIds_iff]
  rintro ⟨e, he, h1, _⟩
  exact habsent e he h1

/-- C2 at a concrete input: the display holding a visual for `a` receives an
empty message. -/
theorem C2_absent_ids_are_erased_witness :
    bytes "a" ∈ mapKeys displayWithA.visuals_ ∧
    (∀ e ∈ emptyMsg.entities, e.id ≠ bytes "a") ∧
    bytes "a" ∉ mapKeys (processMessage displayWithA emptyMsg
        (some (zeroVector, identityQuaternion)) failingService).state.visuals_ :=
  ⟨by decide, by simp [emptyMsg],
    C2_absent_ids_are_erased displayWithA emptyMsg zeroVector identityQuaternion failingService
      (bytes "a") (by decide) (by simp [emptyMsg])⟩

/-- C8: when the transform lookup succeeds, the keys of `visuals_` after
`processMessage` are exactly the ids of the entities with `has_pose` set whose
id does not end with the five characters "floor"; no state reached from the
initial display has a key ending in "floor"; handling a service response leaves
the keys as they are. -/
theorem C8_keys_are_posed_non_floor_ids (s : WorldModelDisplay) (msg : EntityInfos)
    (fp : Vector3) (fo : Quaternion) (service : List CppString → Option QueryMeshesResponse) :
    (∀ k, k ∈ mapKeys (processMessage s msg (some (fp, fo)) service).state.visuals_
        ↔ k ∈ (msg.entities.filter
                (fun e => e.has_pose && !decide (floorLiteral <:+ e.id))).map (fun e => e.id)) ∧
    (∀ deliveries : List Delivery,
      ∀ k ∈ mapKeys (run WorldModelDisplay.init deliveries).visuals_, ¬ floorLiteral <:+ k) ∧
    (∀ (visuals : VisualMap) (response : QueryMeshesResponse),
      mapKeys (applyResponse visuals response) = mapKeys visuals) := by
  refine ⟨?_, ?_, mapKeys_applyResponse⟩
  · intro k
    rw [mem_mapKeys_processMessage, mem_keptIds_iff]
    simp only [List.mem_map, List.mem_filter, Bool.and_eq_true, Bool.not_eq_true_eq_eq_false,
      decide_eq_false_iff_not, ← endsWithFloor_iff_suffix, Bool.not_eq_true]
    constructor
    · rintro ⟨e, he, h1, h2, h3⟩
      exact ⟨e, ⟨he, h2, h3⟩, h1⟩
    · rintro ⟨e, ⟨he, h2, h3⟩, h1⟩
      exact ⟨e, he, h1, h2, h3⟩
  · intro deliveries k hk
    have h := (run_invariant deliveries).2 k hk
    rw [← endsWithFloor_iff_suffix, h]
    simp

/-- C8 at a concrete input: after `sampleMsg` the display, started empty, holds
no key ending in "floor". -/
theorem C8_keys_are_posed_non_floor_ids_witness :
    ∀ k ∈ mapKeys (run WorldModelDisplay.init
        [{ msg := sampleMsg, transform := some (zeroVector, identityQuaternion),
           service := failingService }]).visuals_,
      ¬ floorLiteral <:+ k :=
  (C8_keys_are_posed_non_floor_ids WorldModelDisplay.init sampleMsg zeroVector
    identityQuaternion failingService).2.1 _

/-- C9: for every id string the colour index `djb2(id) % 27`, with `djb2`
computed on a wrapping 32-bit accumulator, lies in `[0, 27)`, so the read of
the 27-row table `COLORS` is in bounds. -/
theorem C9_colour_index_in_bounds (id : CppString) :
    0 ≤ i_color id ∧ i_color id < 27 ∧ COLORS.length = 27 ∧
    (colorRow (i_color id)).isSome = true := by
  have hlen : COLORS.length = 27 := rfl
  have hlt : djb2 id % 27 < 27 := Nat.mod_lt _ (by decide)
  have hi : i_color id = ((djb2 id % 27 : Nat) : Int) := by
    unfold i_color wrapInt32
    omega
  have h0 : 0 ≤ i_color id := by rw [hi]; omega
  have h1 : i_color id < 27 := by rw [hi]; omega
  refine ⟨h0, h1, hlen, ?_⟩
  unfold colorRow
  rw [if_pos h0]
  have h2 : (i_color id).toNat < COLORS.length := by rw [hlen]; omega
  simp [h2]

/-- C10: when the transform lookup fails, `processMessage` changes nothing: the
dictionary and the pending request list are those before the call and no
service call is made, whatever the message and the service. -/
theorem C10_failed_lookup_is_a_no_op (s : WorldModelDisplay) (msg : EntityInfos)
    (service : List CppString → Option QueryMeshesResponse) :
    (processMessage s msg none service).state = s ∧
    (processMessage s msg none service).state.visuals_ = s.visuals_ ∧
    (processMessage s msg none service).state.request_entity_ids = s.request_entity_ids ∧
    (processMessage s msg none service).service_calls = [] ∧
    (processMessage s msg none service).created = [] :=
  ⟨rfl, rfl, rfl, rfl, rfl⟩

/-- C3: starting from an empty pending request list, the request sent to the
mesh query service is exactly the ids, in message order, of the kept entities
whose mesh revision is strictly greater than the revision stored in the visual
of their id (a revision the entity loop never moves); an id is requested only
for such an entity. -/
theorem C3_request_lists_stale_kept_ids (s : WorldModelDisplay) (msg : EntityInfos)
    (fp : Vector3) (fo : Quaternion) (service : List CppString → Option QueryMeshesResponse)
    (hempty : s.request_entity_ids = []) :
    (processMessage s msg (some (fp, fo)) service).service_calls
      = (if (staleEntities s.visuals_ msg.entities).map (fun e => e.id) = [] then []
         else [(staleEntities s.visuals_ msg.entities).map (fun e => e.id)]) ∧
    (∀ request ∈ (processMessage s msg (some (fp, fo)) service).service_calls,
      ∀ k ∈ request, ∃ e ∈ msg.entities,
        e.id = k ∧ kept e = true ∧ e.mesh_revision > storedRevision s.visuals_ k) ∧
    (∀ (entities : List EntityInfo) (k : CppString),
      storedRevision (entityLoop fp fo (loopStart s) entities).visuals k
        = storedRevision s.visuals_ k) := by
  have hreq : (loopEnd s msg fp fo).request_ids
      = (staleEntities s.visuals_ msg.entities).map (fun e => e.id) := by
    simp [loopEnd, request_ids_entityLoop, loopStart, hempty]
  have hcalls := service_calls_processMessage s msg fp fo service
  rw [hreq] at hcalls
  refine ⟨hcalls, ?_, fun entities k => storedRevision_entityLoop fp fo (loopStart s) entities k⟩
  intro request hr k hk
  rw [hcalls] at hr
  split_ifs at hr with h
  · simp at hr
  · have hr2 : request = (staleEntities s.visuals_ msg.entities).map (fun e => e.id) := by
      simpa using hr
    rw [hr2] at hk
    obtain ⟨e, he, hek⟩ := List.mem_map.mp hk
    simp only [staleEntities, List.mem_filter, Bool.and_eq_true, decide_eq_true_eq] at he
    subst hek
    exact ⟨e, he.1, rfl, he.2.1, he.2.2⟩

/-- C3 at a concrete input: the visual of `a` is at revision 3; the message
names `a` at revision 5, the new entity `b` at revision 0 and `a` at revision
2; the request is `a` alone. -/
theorem C3_request_lists_stale_kept_ids_witness :
    displayWithA.request_entity_ids = [] ∧
    (processMessage displayWithA staleMsg (some (zeroVector, identityQuaternion))
        failingService).service_calls = [[bytes "a"]] :=
  ⟨rfl,
    (C3_request_lists_stale_kept_ids displayWithA staleMsg zeroVector identityQuaternion
      failingService rfl).1.trans (by decide)⟩

/-- C4: every run of `processMessage` calls the mesh query service at most
once; it calls it exactly when the transform lookup succeeded and the pending
request list is non-empty after the entity loop, with that list as the request;
the pending list is empty at every state reached from the initial display, and
from such a state no call is made when no kept entity has a stale mesh
revision. -/
theorem C4_service_called_at_most_once (s : WorldModelDisplay) (msg : EntityInfos)
    (transform : Option (Vector3 × Quaternion))
    (service : List CppString → Option QueryMeshesResponse) :
    (processMessage s msg transform service).service_calls.length ≤ 1 ∧
    ((processMessage s msg transform service).service_calls ≠ [] ↔
      ∃ fp fo, transform = some (fp, fo) ∧ (loopEnd s msg fp fo).request_ids ≠ []) ∧
    (∀ request ∈ (processMessage s msg transform service).service_calls,
      ∃ fp fo, transform = some (fp, fo) ∧ request = (loopEnd s msg fp fo).request_ids) ∧
    (s.request_entity_ids = [] →
      (∀ e ∈ msg.entities, kept e = true → e.mesh_revision ≤ storedRevision s.visuals_ e.id) →
      (processMessage s msg transform service).service_calls = []) ∧
    (∀ deliveries : List Delivery,
      (run WorldModelDisplay.init deliveries).request_entity_ids = []) := by
  cases transform with
  | none =>
    refine ⟨by simp [processMessage], by simp [processMessage], by simp [processMessage],
      fun _ _ => by simp [processMessage], fun ds => (run_invariant ds).1⟩
  | some t =>
    obtain ⟨fp, fo⟩ := t
    have hcalls := service_calls_processMessage s msg fp fo service
    refine ⟨?_, ?_, ?_, ?_, fun ds => (run_invariant ds).1⟩
    · rw [hcalls]
      split_ifs <;> simp
    · rw [hcalls]
      constructor
      · intro h
        refine ⟨fp, fo, rfl, ?_⟩
        intro hc
        simp [hc] at h
      · rintro ⟨fp2, fo2, ht, h⟩
        simp only [Option.some.injEq, Prod.mk.injEq] at ht
        obtain ⟨h1, h2⟩ := ht
        subst h1 h2
        simp [h]
    · intro request hr
      rw [hcalls] at hr
      split_ifs at hr with h
      · simp at hr
      · exact ⟨fp, fo, rfl, by simpa using hr⟩
    · intro hempty hfresh
      rw [hcalls]
      have hstale : staleEntities s.visuals_ msg.entities = [] := by
        unfold staleEntities
        rw [List.filter_eq_nil_iff]
        intro e he
        cases hk : kept e with
        | false => simp
        | true =>
          have h := hfresh e he hk
          simp only [Bool.true_and, decide_eq_true_eq, not_lt]
          exact h
      have hreq : (loopEnd s msg fp fo).request_ids = [] := by
        simp [loopEnd, request_ids_entityLoop, loopStart, hempty, hstale]
      simp [hreq]

/-- C4 at a concrete input: the visual of `a` is at revision 3 and the message
names `a` at revision 3; no call is made. -/
theorem C4_service_called_at_most_once_witness :
    displayWithA.request_entity_ids = [] ∧
    (∀ e ∈ freshMsg.entities, kept e = true →
      e.mesh_revision ≤ storedRevision displayWithA.visuals_ e.id) ∧
    (processMessage displayWithA freshMsg (some (zeroVector, identityQuaternion))
        failingService).service_calls = [] :=
  ⟨rfl, by decide,
    (C4_service_called_at_most_once displayWithA freshMsg
      (some (zeroVector, identityQuaternion)) failingService).2.2.2.1 rfl (by decide)⟩

/-- C5: when the mesh query service call fails, every visual is exactly as the
entity loop left it (no mesh is set, every revision counter is the one stored
before the message), the keys of the dictionary are the kept ids as after a
successful call, and the pending request list is empty when `processMessage`
returns. -/
theorem C5_failed_call_is_skipped (s : WorldModelDisplay) (msg : EntityInfos)
    (fp : Vector3) (fo : Quaternion) (service : List CppString → Option QueryMeshesResponse)
    (hpending : (loopEnd s msg fp fo).request_ids ≠ [])
    (hfail : service (loopEnd s msg fp fo).request_ids = none) :
    (processMessage s msg (some (fp, fo)) service).service_calls
      = [(loopEnd s msg fp fo).request_ids] ∧
    (processMessage s msg (some (fp, fo)) service).state.visuals_
      = removeStale (loopEnd s msg fp fo).visuals (loopEnd s msg fp fo).alive_ids ∧
    (∀ k v, mapFind (processMessage s msg (some (fp, fo)) service).state.visuals_ k = some v →
      mapFind (loopEnd s msg fp fo).visuals k = some v ∧
      v.mesh_revision = storedRevision s.visuals_ k) ∧
    (∀ (service2 : List CppString → Option QueryMeshesResponse) (k : CppString),
      k ∈ mapKeys (processMessage s msg (some (fp, fo)) service).state.visuals_ ↔
      k ∈ mapKeys (processMessage s msg (some (fp, fo)) service2).state.visuals_) ∧
    (processMessage s msg (some (fp, fo)) service).state.request_entity_ids = [] := by
  have hvis : (processMessage s msg (some (fp, fo)) service).state.visuals_
      = removeStale (loopEnd s msg fp fo).visuals (loopEnd s msg fp fo).alive_ids := by
    rcases processMessage_visuals_cases s msg fp fo service with h | ⟨response, h1, _, _⟩
    · exact h
    · rw [hfail] at h1
      cases h1
  refine ⟨?_, hvis, ?_, ?_, request_entity_ids_processMessage s msg fp fo service⟩
  · rw [service_calls_processMessage, if_neg hpending]
  · intro k v hk
    rw [hvis, mapFind_removeStale] at hk
    split_ifs at hk with h
    refine ⟨hk, ?_⟩
    have h2 := storedRevision_entityLoop fp fo (loopStart s) msg.entities k
    unfold storedRevision at h2
    unfold loopEnd at hk
    rw [hk] at h2
    exact h2
  · intro service2 k
    rw [mem_mapKeys_processMessage, mem_mapKeys_processMessage]

/-- C5 at a concrete input: the empty display receives `b` at revision 2 and
the service fails. -/
theorem C5_failed_call_is_skipped_witness :
    (loopEnd WorldModelDisplay.init { entities := [sampleEntity (bytes "b") true 2] }
        zeroVector identityQuaternion).request_ids ≠ [] ∧
    (processMessage WorldModelDisplay.init { entities := [sampleEntity (bytes "b") true 2] }
        (some (zeroVector, identityQuaternion)) failingService).state.request_entity_ids = [] :=
  ⟨by decide,
    (C5_failed_call_is_skipped WorldModelDisplay.init
      { entities := [sampleEntity (bytes "b") true 2] } zeroVector identityQuaternion
      failingService (by decide) rfl).2.2.2.2⟩

/-- C7: `new EntityVisual` is executed only for an id that is not a key of
`visuals_`, and at most once per id; a kept entity whose id is a key has the
stored visual updated in place (no visual is constructed), and the revision
that visual stored is the one its mesh revision is compared with. -/
theorem C7_visual_created_only_when_absent (s : WorldModelDisplay) (msg : EntityInfos)
    (fp : Vector3) (fo : Quaternion) (service : List CppString → Option QueryMeshesResponse) :
    (∀ k ∈ (processMessage s msg (some (fp, fo)) service).created,
      mapFind s.visuals_ k = none ∧ k ∈ keptIds msg) ∧
    (processMessage s msg (some (fp, fo)) service).created.Nodup ∧
    (∀ (st : LoopState) (info : EntityInfo) (v : EntityVisual),
      kept info = true → mapFind st.visuals info.id = some v →
      (processEntity fp fo st info).created = st.created ∧
      mapFind (processEntity fp fo st info).visuals info.id = some (updateVisual fp fo info v) ∧
      (updateVisual fp fo info v).mesh_revision = v.mesh_revision ∧
      (processEntity fp fo st info).request_ids
        = (if info.mesh_revision > v.mesh_revision then st.request_ids ++ [info.id]
           else st.request_ids)) ∧
    (∀ e ∈ msg.entities, ∀ v : EntityVisual,
      kept e = true → mapFind s.visuals_ e.id = some v →
      e.id ∉ (processMessage s msg (some (fp, fo)) service).created ∧
      (∃ v2, mapFind (loopEnd s msg fp fo).visuals e.id = some v2 ∧
        v2.mesh_revision = v.mesh_revision) ∧
      (e.mesh_revision > v.mesh_revision → e.id ∈ (loopEnd s msg fp fo).request_ids) ∧
      (e.id ∈ (loopEnd s msg fp fo).request_ids →
        e.id ∈ s.request_entity_ids ∨
        ∃ e2 ∈ msg.entities, kept e2 = true ∧ e2.id = e.id ∧
          e2.mesh_revision > v.mesh_revision)) := by
  have hcreated : ∀ k ∈ (processMessage s msg (some (fp, fo)) service).created,
      mapFind s.visuals_ k = none ∧ k ∈ keptIds msg := by
    intro k hk
    rw [created_processMessage] at hk
    rcases created_entityLoop_sound fp fo (loopStart s) msg.entities k hk with h | h
    · simp [loopStart] at h
    · exact h
  have hreq : (loopEnd s msg fp fo).request_ids
      = s.request_entity_ids ++ (staleEntities s.visuals_ msg.entities).map (fun e => e.id) := by
    simp [loopEnd, request_ids_entityLoop, loopStart]
  refine ⟨hcreated, ?_, ?_, ?_⟩
  · rw [created_processMessage]
    exact created_entityLoop_nodup fp fo (loopStart s) msg.entities
      (by simp [loopStart]) (by simp [loopStart])
  · intro st info v hk hf
    have hsr : storedRevision st.visuals info.id = v.mesh_revision := by
      simp [storedRevision, hf, EntityVisual.getMeshRevision]
    refine ⟨?_, ?_, updateVisual_mesh_revision fp fo info v, ?_⟩
    · rw [created_processEntity]
      simp [hf]
    · rw [mapFind_processEntity]
      simp [hk, lookupOrNew, hf]
    · rw [processEntity_kept fp fo st info hk, hsr]
  · intro e he v hk hf
    have hsr : storedRevision s.visuals_ e.id = v.mesh_revision := by
      simp [storedRevision, hf, EntityVisual.getMeshRevision]
    refine ⟨?_, ?_, ?_, ?_⟩
    · intro hc
      have h := (hcreated _ hc).1
      rw [hf] at h
      cases h
    · have h1 : mapFind (loopEnd s msg fp fo).visuals e.id ≠ none := by
        unfold loopEnd
        rw [mapFind_entityLoop_ne_none]
        left
        simp [loopStart, hf]
      have h2 := storedRevision_entityLoop fp fo (loopStart s) msg.entities e.id
      cases hv : mapFind (loopEnd s msg fp fo).visuals e.id with
      | none => exact absurd hv h1
      | some v2 =>
        refine ⟨v2, rfl, ?_⟩
        unfold loopEnd at hv
        have h3 : storedRevision (loopStart s).visuals e.id = v.mesh_revision := hsr
        rw [h3] at h2
        simpa [storedRevision, hv, EntityVisual.getMeshRevision] using h2
    · intro hgt
      rw [hreq]
      apply List.mem_append_right
      apply List.mem_map.mpr
      refine ⟨e, ?_, rfl⟩
      simp [staleEntities, he, hk, hsr, hgt]
    · intro hin
      rw [hreq] at hin
      rcases List.mem_append.mp hin with h | h
      · exact Or.inl h
      · right
        obtain ⟨e2, he2, hid⟩ := List.mem_map.mp h
        simp only [staleEntities, List.mem_filter, Bool.and_eq_true, decide_eq_true_eq] at he2
        refine ⟨e2, he2.1, he2.2.1, hid, ?_⟩
        have h4 := he2.2.2
        rw [hid, hsr] at h4
        exact h4

/-- C7 at a concrete input: the visual of `a` is at revision 3, the message
names `a` at revision 5; no visual is constructed for `a` and `a` is
requested. -/
theorem C7_visual_created_only_when_absent_witness :
    kept (sampleEntity (bytes "a") true 5) = true ∧
    mapFind displayWithA.visuals_ (bytes "a")
      = some { EntityVisual.new with mesh_revision := 3 } ∧
    bytes "a" ∉ (processMessage displayWithA staleMsg (some (zeroVector, identityQuaternion))
        failingService).created ∧
    bytes "a" ∈ (loopEnd displayWithA staleMsg zeroVector identityQuaternion).request_ids :=
  have h := (C7_visual_created_only_when_absent displayWithA staleMsg zeroVector
    identityQuaternion failingService).2.2.2 (sampleEntity (bytes "a") true 5) (by decide)
    { EntityVisual.new with mesh_revision := 3 } (by decide) rfl
  ⟨by decide, rfl, h.1, h.2.2.1 (by decide)⟩

/-- The pose the loop body gives to the visual of a kept entity: the frame
position plus the entity position, and the frame orientation times the entity
orientation. -/
theorem pose_of_kept_entity (fp : Vector3) (fo : Quaternion) (st : LoopState)
    (info : EntityInfo) (h : kept info = true) :
    ∃ v, mapFind (processEntity fp fo st info).visuals info.id = some v ∧
      v.frame_position = fp.add info.pose.position ∧
      v.frame_orientation = fo.mul info.pose.orientation := by
  refine ⟨updateVisual fp fo info (lookupOrNew st.visuals info.id), ?_,
    (updateVisual_frame fp fo info _).1, (updateVisual_frame fp fo info _).2⟩
  rw [mapFind_processEntity]
  simp [h]

/-- C6 on the code: with the frame at the origin, turned by half a turn about
the z axis, an entity at `(1, 0, 0)` is in the viewer frame at `(-1, 0, 0)`;
`processMessage` gives its visual the position `(1, 0, 0)` (the frame
orientation is applied to the orientation only). -/
theorem C6_position_is_not_rotated :
    (mapFind (processMessage WorldModelDisplay.init oneEntityMsg
        (some (zeroVector, halfTurnZ)) failingService).state.visuals_ (bytes "b")).map
      (fun v => (v.frame_position, v.frame_orientation))
      = some ({ x := 1, y := 0, z := 0 }, { w := 0, x := 0, y := 0, z := 1 }) ∧
    zeroVector.add (halfTurnZ.rotate { x := 1, y := 0, z := 0 })
      = { x := -1, y := 0, z := 0 } ∧
    halfTurnZ.mul { w := 1, x := 0, y := 0, z := 0 } = { w := 0, x := 0, y := 0, z := 1 } := by
  have hvis : (processMessage WorldModelDisplay.init oneEntityMsg
      (some (zeroVector, halfTurnZ)) failingService).state.visuals_
      = [(bytes "b", updateVisual zeroVector halfTurnZ (sampleEntity (bytes "b") true 0)
          EntityVisual.new)] := by
    rfl
  have hfind : ∀ v : EntityVisual, mapFind [(bytes "b", v)] (bytes "b") = some v := by
    intro v
    simp [mapFind]
  refine ⟨?_, ?_, ?_⟩
  · rw [hvis, hfind]
    have h := updateVisual_frame zeroVector halfTurnZ (sampleEntity (bytes "b") true 0)
      EntityVisual.new
    simp only [Option.map_some', h.1, h.2]
    norm_num [Vector3.add, Quaternion.mul, zeroVector, halfTurnZ, sampleEntity]
  · norm_num [Vector3.add, Quaternion.rotate, Vector3.crossProduct, Vector3.scale,
      zeroVector, halfTurnZ]
  · norm_num [Quaternion.mul, halfTurnZ]

end EdRviz
